import Mathlib

/-!
Verification of the Muddle course-tree GUI core (gui.py): the node-kind
model, the hierarchy fetcher, the streaming tree reconstruction with its
last-inserted-item parent inference, the selection checkbox flags, the
title decoding and the finalize sort.

Display-only Qt attributes (fonts, icons, the child indicator policy) set
in `MoodleItem.setupQt` are not modelled; neither is the logging transport.
Log lines that the claims mention are returned as explicit string lists.
-/

/-- Node kinds, from the source class `MoodleItem.Type`, a Python
`IntEnum`. The integer value of each kind is `MType.rank`. The name
`Type` itself is reserved in Lean, hence `MType`. -/
inductive MType where
  | ROOT
  | COURSE
  | SECTION
  | MODULE
  | FORUM
  | RESOURCE
  | FOLDER
  | ATTENDANCE
  | LABEL
  | QUIZ
  | CONTENT
  | FILE
  | URL
deriving DecidableEq

/-- The integer value each kind carries in the `IntEnum` declaration
(ROOT = 0 ... URL = 12). Python compares `IntEnum` members by this
value, so `rank` is the comparison key of the reconstruction climb. -/
def MType.rank : MType → Nat
  | .ROOT => 0
  | .COURSE => 1
  | .SECTION => 2
  | .MODULE => 3
  | .FORUM => 4
  | .RESOURCE => 5
  | .FOLDER => 6
  | .ATTENDANCE => 7
  | .LABEL => 8
  | .QUIZ => 9
  | .CONTENT => 10
  | .FILE => 11
  | .URL => 12

/-- JSON-like values of the remote payload records. A record is an
association list of keys and values; the JSON payloads carry no
duplicate keys. -/
inductive Value where
  | vStr (s : String)
  | vInt (n : Int)
  | vList (rs : List (List (String × Value)))

/-- A payload record, the raw dict a FetchEvent carries. -/
abbrev Record := List (String × Value)

/-- Association-list lookup, modelling a Python dict read for both the
payload records and the literal subtype dicts. -/
def alookup {β : Type} : List (String × β) → String → Option β
  | [], _ => none
  | (k, v) :: rest, key => if k = key then some v else alookup rest key

/-- Python exceptions that the modelled code can raise. -/
inductive PyErr where
  | keyError (k : String)
  | attributeError
deriving DecidableEq

/-- Subscript access `d[k]` of a payload record: the value when the key
is present, a KeyError otherwise. -/
def dGet (d : Record) (k : String) : Except PyErr Value :=
  match alookup d k with
  | some v => .ok v
  | none => .error (.keyError k)

/-- Membership test `k in d` of a payload record. -/
def hasKey (d : Record) (k : String) : Bool :=
  (alookup d k).isSome

/-- Python `str()` of a payload value, used for `str(course["id"])`.
Course ids are integers or strings in the Moodle schema; the list case
is unreachable there and is mapped to the empty string. -/
def Value.pyStr : Value → String
  | .vStr s => s
  | .vInt n => toString n
  | .vList _ => ""

/-- Modelled from the spec: the title strings are HTML-unescaped with
the Python stdlib function `html.unescape`, an external collaborator
whose source is not part of this repository. The model decodes the
common named entities amp, lt, gt and quot; all other text passes
through unchanged, which is enough for every title the claims use. -/
def unescapeChars : List Char → List Char
  | '&' :: 'a' :: 'm' :: 'p' :: ';' :: rest => '&' :: unescapeChars rest
  | '&' :: 'l' :: 't' :: ';' :: rest => '<' :: unescapeChars rest
  | '&' :: 'g' :: 't' :: ';' :: rest => '>' :: unescapeChars rest
  | '&' :: 'q' :: 'u' :: 'o' :: 't' :: ';' :: rest => '"' :: unescapeChars rest
  | c :: rest => c :: unescapeChars rest
  | [] => []

/-- The string wrapper of `unescapeChars`, standing for `html.unescape`. -/
def html_unescape (s : String) : String :=
  ⟨unescapeChars s.data⟩

/-- Qt check states; only `unchecked` is ever assigned by this code.
The middle state is the Qt partially-checked one. -/
inductive CheckState where
  | unchecked
  | mixed
  | checked
deriving DecidableEq

/-- The attribute bag `MoodleItem.Metadata` filled by keyword arguments:
`type` always, `id` for COURSE, SECTION and MODULE items, `url` for
CONTENT items. The title is stored raw, exactly as received. -/
structure Metadata where
  type : MType
  id : Option Value
  title : String
  url : Option Value

/-- The Qt-side state a `MoodleItem` carries after `setupQt`: the two
checkbox flags, the check state (present only when one was assigned)
and the displayed column-0 text. -/
structure QtState where
  userCheckable : Bool
  autoTristate : Bool
  checkState : Option CheckState
  text : String

/-- `MoodleItem.setupQt`, the flag and text assignment of gui.py lines
87 to 95. The default Qt item flags include ItemIsUserCheckable and do
not include ItemIsAutoTristate; the selectable branch sets both flags
and an unchecked check state, the other branch clears the checkable
flag and assigns no check state. Both branches display the
HTML-unescaped title. -/
def setupQt (meta : Metadata) : QtState :=
  if meta.type ∈ [MType.FILE, MType.FOLDER, MType.RESOURCE] then
    { userCheckable := true
      autoTristate := true
      checkState := some .unchecked
      text := html_unescape meta.title }
  else
    { userCheckable := false
      autoTristate := false
      checkState := none
      text := html_unescape meta.title }

/-- One tree item: its metadata bag, its Qt state and its ordered
children. -/
inductive MoodleItem where
  | mk (metadata : Metadata) (qt : QtState) (children : List MoodleItem)

def MoodleItem.metadata : MoodleItem → Metadata
  | .mk m _ _ => m

def MoodleItem.qt : MoodleItem → QtState
  | .mk _ q _ => q

def MoodleItem.children : MoodleItem → List MoodleItem
  | .mk _ _ cs => cs

/-- Construction of a fresh `MoodleItem`: the metadata bag is stored and
`setupQt` runs once; the item starts with no children. Attachment to a
parent is done by the caller (`onWorkerLoadedItem`). -/
def mkMoodleItem (meta : Metadata) : MoodleItem :=
  .mk meta (setupQt meta) []

/-- The REST collaborator, specified at its interface boundary: the
parsed response of the course-listing call and, per course-id string,
the parsed response of the section-listing call. `none` models a falsy
response object, which the source treats as a failed request. -/
structure Api where
  coursesResp : Option (List Record)
  sectionsResp : String → Option (List Record)

namespace MoodleFetcher

/-- `MoodleFetcher.getCourses`: a falsy response yields the empty list,
otherwise the parsed JSON list is returned. -/
def getCourses (api : Api) : List Record :=
  match api.coursesResp with
  | none => []
  | some cs => cs

/-- `MoodleFetcher.getSections`: a course without an `id` key is skipped
with an error log line and yields no sections; otherwise the section
listing is requested with `str(course["id"])` and a falsy response
yields the empty list. The second component is the emitted log. -/
def getSections (api : Api) (course : Record) : List Record × List String :=
  match alookup course "id" with
  | none => ([], ["cannot get sections from invalid course (no id)"])
  | some idv =>
    match api.sectionsResp idv.pyStr with
    | none => ([], [])
    | some sections => (sections, [])

/-- `MoodleFetcher.getModules`: the embedded `modules` list of a section
record, or the empty list when the key is absent. A present non-list
value would make the for loop in `run` raise in Python; the Moodle
schema always sends a list there and the model maps that case to the
empty list. -/
def getModules (s : Record) : List Record :=
  match alookup s "modules" with
  | some (.vList ms) => ms
  | some _ => []
  | none => []

/-- `MoodleFetcher.getContent`: the embedded `contents` list of a module
record, or the empty list when the key is absent. -/
def getContent (m : Record) : List Record :=
  match alookup m "contents" with
  | some (.vList cs) => cs
  | some _ => []
  | none => []

/-- `MoodleFetcher.run`, the nested depth-first loop of gui.py lines 106
to 114. Each `loadedItem.emit` appends one event to the stream, so the
loop body extends an accumulator in emission order. -/
def run (api : Api) : List (MType × Record) :=
  (getCourses api).foldl
    (fun acc course =>
      ((getSections api course).1).foldl
        (fun acc2 sec =>
          (getModules sec).foldl
            (fun acc3 module =>
              (getContent module).foldl
                (fun acc4 content => acc4 ++ [(MType.CONTENT, content)])
                (acc3 ++ [(MType.MODULE, module)]))
            (acc2 ++ [(MType.SECTION, sec)]))
        (acc ++ [(MType.COURSE, course)]))
    []

/-- The emission order in the words of the spec: for each course emit
COURSE, then for each of its sections emit SECTION, then for each
module in the section emit MODULE, then for each content item in the
module emit CONTENT, flattened left to right. Written from the spec
text to be compared with `run`. -/
def dfsFlattenSpec (api : Api) : List (MType × Record) :=
  (getCourses api).flatMap fun course =>
    (MType.COURSE, course) ::
      ((getSections api course).1).flatMap fun sec =>
        (MType.SECTION, sec) ::
          (getModules sec).flatMap fun module =>
            (MType.MODULE, module) ::
              (getContent module).map fun content => (MType.CONTENT, content)

end MoodleFetcher

/-- The literal dict `moduleType` of gui.py lines 199 to 206, mapping a
module subtype tag to its specific kind. -/
def moduleType : List (String × MType) :=
  [("folder", .FOLDER), ("resource", .RESOURCE), ("forum", .FORUM),
   ("attendance", .ATTENDANCE), ("label", .LABEL), ("quiz", .QUIZ)]

/-- The literal dict `contentType` of gui.py lines 210 to 213. -/
def contentType : List (String × MType) :=
  [("url", .URL), ("file", .FILE)]

/-- Python `dict.get` on one of the two subtype dicts: a string key is
looked up, any non-string key misses. -/
def dictGet (d : List (String × MType)) : Value → Option MType
  | .vStr s => alookup d s
  | _ => none

/-- The expression `d.get(tag) or fallback`. Every kind in the two
dicts has a nonzero integer value, hence is truthy, so the `or` falls
through exactly when the lookup returns None. -/
def getOr (d : List (String × MType)) (tag : Value) (fallback : MType) : MType :=
  (dictGet d tag).getD fallback

/-- The widget state of `MoodleTreeWidget`: the top-level items (the
children of the invisible Qt root), the remembered last inserted item
as a path, and the sorting flag set by `setSortingEnabled`. A path is
stored deepest index first: `[j, i]` is child `j` of top-level item
`i`, mirroring a parent-pointer chain, so the parent of a path is its
tail and a path of length one has no parent. -/
structure TreeState where
  topLevel : List MoodleItem
  lastInsertedItem : Option (List Nat)
  sortingEnabled : Bool

/-- Item lookup along a root-first index path. -/
def nodeAtList : List MoodleItem → List Nat → Option MoodleItem
  | _, [] => none
  | forest, [i] => forest.get? i
  | forest, i :: rest => (forest.get? i).bind fun n => nodeAtList n.children rest

/-- Item lookup along a deepest-first path, the stored orientation. -/
def nodeAtRev (forest : List MoodleItem) (p : List Nat) : Option MoodleItem :=
  nodeAtList forest p.reverse

/-- Replace the item at one index of a level, leaving an invalid index
untouched (paths maintained by the widget are always valid). -/
def modifyChild : List MoodleItem → Nat → (MoodleItem → MoodleItem) → List MoodleItem
  | [], _, _ => []
  | x :: xs, 0, f => f x :: xs
  | x :: xs, n + 1, f => x :: modifyChild xs n f

def MoodleItem.appendChild (n : MoodleItem) (c : MoodleItem) : MoodleItem :=
  .mk n.metadata n.qt (n.children ++ [c])

/-- Attach `c` as last child of the item at a root-first path. -/
def attachAtList : List MoodleItem → List Nat → MoodleItem → List MoodleItem
  | forest, [], _ => forest
  | forest, [i], c => modifyChild forest i (fun n => n.appendChild c)
  | forest, i :: rest, c =>
    modifyChild forest i (fun n => .mk n.metadata n.qt (attachAtList n.children rest c))

/-- Attach at a deepest-first path. -/
def attachAtRev (forest : List MoodleItem) (p : List Nat) (c : MoodleItem) : List MoodleItem :=
  attachAtList forest p.reverse c

/-- Number of children of the item at a deepest-first path; the new
child of that item gets this index. -/
def childCountAt (forest : List MoodleItem) (p : List Nat) : Nat :=
  match nodeAtRev forest p with
  | some n => n.children.length
  | none => 0

namespace MoodleTreeWidget

/-- The parent-inference climb of gui.py lines 192 to 194: starting at
the last inserted item, while the incoming kind compares less than or
equal to the candidate kind and the candidate has a parent, move to the
parent. With deepest-first paths the parent is the tail, and a path of
length one is a top-level item whose Qt parent is None. An unresolvable
path cannot occur for the paths the widget maintains and is returned
unchanged. -/
def climb (forest : List MoodleItem) (ty : MType) : List Nat → List Nat
  | [] => []
  | i :: rest =>
    match nodeAtRev forest (i :: rest) with
    | none => i :: rest
    | some n =>
      if ty.rank ≤ n.metadata.type.rank ∧ rest ≠ [] then climb forest ty rest
      else i :: rest

/-- Attach a freshly built item under the climbed parent path and point
`lastInsertedItem` at it, as gui.py lines 196 to 220 do for the
non-course kinds. -/
def insertUnder (st : TreeState) (pp : List Nat) (mi : MoodleItem) : TreeState :=
  { st with
    topLevel := attachAtRev st.topLevel pp mi
    lastInsertedItem := some (childCountAt st.topLevel pp :: pp) }

/-- `MoodleTreeWidget.onWorkerLoadedItem`, gui.py lines 182 to 220. A
COURSE event builds a top-level item from `item["id"]` and
`item["shortname"]`; any other kind first climbs from the last inserted
item (an AttributeError if there is none), then builds the item from
its kind-specific keys, resolving MODULE and CONTENT subtypes through
the dicts with the generic kind as fallback. Keyword arguments are
evaluated left to right, so a missing key raises its KeyError before
any item is constructed or attached. A kind matching no branch is
logged and dropped without advancing `lastInsertedItem`. -/
def onWorkerLoadedItem (st : TreeState) (ty : MType) (item : Record) :
    Except PyErr TreeState :=
  if ty = .COURSE then do
    let idv ← dGet item "id"
    let snv ← dGet item "shortname"
    let mi := mkMoodleItem { type := ty, id := some idv, title := snv.pyStr, url := none }
    .ok { st with
          topLevel := st.topLevel ++ [mi]
          lastInsertedItem := some [st.topLevel.length] }
  else
    match st.lastInsertedItem with
    | none => .error .attributeError
    | some p0 =>
      let pp := climb st.topLevel ty p0
      if ty = .SECTION then do
        let idv ← dGet item "id"
        let namev ← dGet item "name"
        .ok (insertUnder st pp
          (mkMoodleItem { type := ty, id := some idv, title := namev.pyStr, url := none }))
      else if ty = .MODULE then do
        let modv ← dGet item "modname"
        let nt := getOr moduleType modv ty
        let idv ← dGet item "id"
        let namev ← dGet item "name"
        .ok (insertUnder st pp
          (mkMoodleItem { type := nt, id := some idv, title := namev.pyStr, url := none }))
      else if ty = .CONTENT then do
        let tagv ← dGet item "type"
        let nt := getOr contentType tagv ty
        let fnv ← dGet item "filename"
        let urlv ← dGet item "fileurl"
        .ok (insertUnder st pp
          (mkMoodleItem { type := nt, id := none, title := fnv.pyStr, url := some urlv }))
      else
        .ok st

end MoodleTreeWidget

/-- The handle the widget keeps on its fetch worker; the only state the
refresh guard consults is `isFinished()`. A freshly started QThread is
not finished. -/
structure FetcherHandle where
  finished : Bool

/-- The worker slot of the widget: `None` before the first refresh,
afterwards the (always truthy) current `MoodleFetcher` object. -/
structure WidgetCtrl where
  worker : Option FetcherHandle

namespace MoodleTreeWidget

/-- `MoodleTreeWidget.refresh`, gui.py lines 157 to 165, translated
condition for condition: when there is no worker yet, or the current
worker is not finished, a new fetcher is created, connected and
started (second component true); otherwise the request is dropped with
the debug log line (second component false, third the log). -/
def refresh (w : WidgetCtrl) : WidgetCtrl × Bool × List String :=
  match w.worker with
  | none => ({ worker := some { finished := false } }, true, [])
  | some wk =>
    if wk.finished = false then
      ({ worker := some { finished := false } }, true, [])
    else
      (w, false, ["A worker is already running, not refreshing"])

end MoodleTreeWidget

/-- Comparison of two items by their displayed column-0 text, the sort
key of `sortByColumn(0, Qt.AscendingOrder)`. -/
def byText (a b : MoodleItem) : Prop :=
  a.qt.text ≤ b.qt.text

instance : DecidableRel byText := fun a b =>
  inferInstanceAs (Decidable (a.qt.text ≤ b.qt.text))

instance : IsTotal MoodleItem byText :=
  ⟨fun a b => le_total a.qt.text b.qt.text⟩

instance : IsTrans MoodleItem byText :=
  ⟨fun _ _ _ h1 h2 => le_trans h1 h2⟩

mutual

/-- Modelled from the spec: `QTreeWidget.sortByColumn` is Qt collaborator
behaviour whose source is not part of this repository; per the spec it
sorts the whole tree by display title, ascending, at every level. The
model sorts the children of every node recursively. -/
def sortTree : MoodleItem → MoodleItem
  | .mk m q cs => .mk m q (List.insertionSort byText (sortTrees cs))

def sortTrees : List MoodleItem → List MoodleItem
  | [] => []
  | c :: cs => sortTree c :: sortTrees cs

end

/-- One sorted level: recursively sort every subtree, then order the
level itself by display text. -/
def sortForest (l : List MoodleItem) : List MoodleItem :=
  List.insertionSort byText (sortTrees l)

/-- `MoodleTreeWidget.onWorkerDone`, gui.py lines 222 to 226: sort the
whole tree by column 0 ascending and enable live sorting. -/
def MoodleTreeWidget.onWorkerDone (st : TreeState) : TreeState :=
  { st with topLevel := sortForest st.topLevel, sortingEnabled := true }

/-- The queued, strictly ordered, one-at-a-time delivery of the event
stream into the UI thread: each event is handled by
`onWorkerLoadedItem` in emission order. An event whose handling raises
leaves the widget state unchanged (the raise happens during keyword
argument evaluation, before any mutation) and delivery continues with
the next queued event. -/
def processAll (st : TreeState) : List (MType × Record) → TreeState
  | [] => st
  | (ty, r) :: evs =>
    match MoodleTreeWidget.onWorkerLoadedItem st ty r with
    | .ok st' => processAll st' evs
    | .error _ => processAll st evs

/-- One whole refresh cycle: the fetcher emits its stream, the
reconstructor consumes it in order, and the finished signal triggers
`onWorkerDone` exactly once, after the last event. -/
def session (api : Api) (st : TreeState) : TreeState :=
  MoodleTreeWidget.onWorkerDone (processAll st (MoodleFetcher.run api))

/-- Every suffix of a stored deepest-first path resolves to an item:
the invariant the widget maintains for `lastInsertedItem`, stated over
the computable list of suffixes so it can be checked by evaluation. -/
def validChain (forest : List MoodleItem) (p : List Nat) : Prop :=
  ∀ q ∈ p.tails, q ≠ [] → (nodeAtRev forest q).isSome = true

instance (forest : List MoodleItem) (p : List Nat) : Decidable (validChain forest p) :=
  inferInstanceAs (Decidable (∀ q ∈ p.tails, q ≠ [] → (nodeAtRev forest q).isSome = true))

/-- Every level of a subtree is ordered by display text. -/
inductive AllSorted : MoodleItem → Prop where
  | mk : ∀ m q cs, List.Sorted byText cs → (∀ c ∈ cs, AllSorted c) →
      AllSorted (.mk m q cs)

/-- Every level of a forest, the top level included, is ordered by
display text. -/
def AllSortedForest (l : List MoodleItem) : Prop :=
  List.Sorted byText l ∧ ∀ c ∈ l, AllSorted c

/-- Concrete states and records used by the witnesses and
counterexamples. -/
def exSt0 : TreeState :=
  { topLevel := [], lastInsertedItem := none, sortingEnabled := false }

def exCourse : Record := [("id", Value.vInt 1), ("shortname", Value.vStr "CS101")]

def exCourseNode : MoodleItem :=
  mkMoodleItem { type := .COURSE, id := some (.vInt 1), title := "CS101", url := none }

def exSt1 : TreeState :=
  { topLevel := [exCourseNode], lastInsertedItem := some [0], sortingEnabled := false }

def exSec : Record := [("id", Value.vInt 10), ("name", Value.vStr "Week1")]

def exSecNode : MoodleItem :=
  mkMoodleItem { type := .SECTION, id := some (.vInt 10), title := "Week1", url := none }

def exSt2 : TreeState :=
  MoodleTreeWidget.insertUnder exSt1 (MoodleTreeWidget.climb exSt1.topLevel .SECTION [0]) exSecNode

/-- The characterization of the parent-inference climb: the result is a
nonempty suffix of the starting chain (an ancestor-or-self of the last
inserted item); its item, when the chain top is not reached, has rank
strictly below the incoming rank; and every chain member strictly
deeper than the result, the start included, has rank at least the
incoming rank. So the result is the first ancestor of strictly smaller
rank, or the top of the chain. -/
theorem climb_spec (forest : List MoodleItem) (ty : MType) :
    ∀ p : List Nat, p ≠ [] → validChain forest p →
      MoodleTreeWidget.climb forest ty p ≠ [] ∧
      MoodleTreeWidget.climb forest ty p <:+ p ∧
      (∀ n, nodeAtRev forest (MoodleTreeWidget.climb forest ty p) = some n →
        (MoodleTreeWidget.climb forest ty p).length = 1 ∨ n.metadata.type.rank < ty.rank) ∧
      (∀ q n, MoodleTreeWidget.climb forest ty p <:+ q → q <:+ p →
        q ≠ MoodleTreeWidget.climb forest ty p → nodeAtRev forest q = some n →
        ty.rank ≤ n.metadata.type.rank) := by
  intro p
  induction p with
  | nil => intro h; exact absurd rfl h
  | cons i rest ih =>
    intro _ hvalid
    have hself : (nodeAtRev forest (i :: rest)).isSome = true := by
      apply hvalid
      · exact (List.mem_tails _ _).mpr (List.suffix_refl _)
      · simp
    obtain ⟨n, hn⟩ := Option.isSome_iff_exists.mp hself
    by_cases hcond : ty.rank ≤ n.metadata.type.rank ∧ rest ≠ []
    · have hstep : MoodleTreeWidget.climb forest ty (i :: rest) =
          MoodleTreeWidget.climb forest ty rest := by
        simp only [MoodleTreeWidget.climb, hn]
        rw [if_pos hcond]
      have hvrest : validChain forest rest := by
        intro q hq hqne
        apply hvalid q _ hqne
        have hsuf : q <:+ rest := (List.mem_tails _ _).mp hq
        exact (List.mem_tails _ _).mpr (hsuf.trans (List.suffix_cons i rest))
      obtain ⟨h1, h2, h3, h4⟩ := ih hcond.2 hvrest
      refine ⟨hstep ▸ h1, hstep ▸ (h2.trans (List.suffix_cons i rest)), hstep ▸ h3, ?_⟩
      rw [hstep]
      intro q m hq1 hq2 hq3 hm
      rcases List.suffix_cons_iff.mp hq2 with hq2a | hq2b
      · subst hq2a
        rw [hn] at hm
        injection hm with hmn
        subst hmn
        exact hcond.1
      · exact h4 q m hq1 hq2b hq3 hm
    · have hstop : MoodleTreeWidget.climb forest ty (i :: rest) = i :: rest := by
        simp only [MoodleTreeWidget.climb, hn]
        rw [if_neg hcond]
      refine ⟨by simp [hstop], by rw [hstop], ?_, ?_⟩
      · intro m hm
        rw [hstop, hn] at hm
        injection hm with hmn
        subst hmn
        rcases not_and_or.mp hcond with h | h
        · right; omega
        · left; rw [hstop]; simp [not_not.mp h]
      · intro q m hq1 hq2 hq3 hm
        rw [hstop] at hq1 hq3
        exact absurd (hq2.eq_of_length (le_antisymm hq2.length_le hq1.length_le)) hq3

theorem except_bind_ok {e a b : Type} (x : a) (f : a → Except e b) :
    (Except.ok x >>= f) = f x := rfl

theorem except_bind_error {e a b : Type} (err : e) (f : a → Except e b) :
    ((Except.error err : Except e a) >>= f : Except e b) = .error err := rfl

theorem onCourse_ok (st : TreeState) (course : Record) (idv snv : Value)
    (hid : alookup course "id" = some idv) (hsn : alookup course "shortname" = some snv) :
    MoodleTreeWidget.onWorkerLoadedItem st .COURSE course =
      .ok { st with
            topLevel := st.topLevel ++
              [mkMoodleItem { type := .COURSE, id := some idv, title := snv.pyStr, url := none }]
            lastInsertedItem := some [st.topLevel.length] } := by
  simp [MoodleTreeWidget.onWorkerLoadedItem, dGet, hid, hsn, except_bind_ok]

theorem alookup_none_iff {b : Type} (d : List (String × b)) (s : String) :
    alookup d s = none ↔ s ∉ d.map Prod.fst := by
  induction d with
  | nil => simp [alookup]
  | cons kv rest ih =>
    obtain ⟨k, v⟩ := kv
    by_cases h : k = s
    · subst h; simp [alookup]
    · simp [alookup, h, ih, Ne.symm h]

theorem onWorker_nonCourse (st : TreeState) (ty : MType) (item : Record) (p0 : List Nat)
    (st' : TreeState) (hty : ty ≠ .COURSE) (hlast : st.lastInsertedItem = some p0)
    (h : MoodleTreeWidget.onWorkerLoadedItem st ty item = .ok st') :
    st' = st ∨ ∃ mi, st' =
      MoodleTreeWidget.insertUnder st (MoodleTreeWidget.climb st.topLevel ty p0) mi := by
  simp only [MoodleTreeWidget.onWorkerLoadedItem, if_neg hty, hlast] at h
  by_cases h2 : ty = .SECTION
  · rw [if_pos h2] at h
    cases hid : dGet item "id" with
    | error e => rw [hid] at h; rw [except_bind_error] at h; cases h
    | ok idv =>
      cases hname : dGet item "name" with
      | error e => rw [hid, except_bind_ok, hname, except_bind_error] at h; cases h
      | ok namev =>
        rw [hid, except_bind_ok, hname, except_bind_ok] at h
        injection h with h
        exact Or.inr ⟨_, h.symm⟩
  · rw [if_neg h2] at h
    by_cases h3 : ty = .MODULE
    · rw [if_pos h3] at h
      cases hmod : dGet item "modname" with
      | error e => rw [hmod, except_bind_error] at h; cases h
      | ok modv =>
        cases hid : dGet item "id" with
        | error e => rw [hmod, except_bind_ok, hid, except_bind_error] at h; cases h
        | ok idv =>
          cases hname : dGet item "name" with
          | error e =>
            rw [hmod, except_bind_ok, hid, except_bind_ok, hname, except_bind_error] at h
            cases h
          | ok namev =>
            rw [hmod, except_bind_ok, hid, except_bind_ok, hname, except_bind_ok] at h
            injection h with h
            exact Or.inr ⟨_, h.symm⟩
    · rw [if_neg h3] at h
      by_cases h4 : ty = .CONTENT
      · rw [if_pos h4] at h
        cases htag : dGet item "type" with
        | error e => rw [htag, except_bind_error] at h; cases h
        | ok tagv =>
          cases hfn : dGet item "filename" with
          | error e => rw [htag, except_bind_ok, hfn, except_bind_error] at h; cases h
          | ok fnv =>
            cases hurl : dGet item "fileurl" with
            | error e =>
              rw [htag, except_bind_ok, hfn, except_bind_ok, hurl, except_bind_error] at h
              cases h
            | ok urlv =>
              rw [htag, except_bind_ok, hfn, except_bind_ok, hurl, except_bind_ok] at h
              injection h with h
              exact Or.inr ⟨_, h.symm⟩
      · rw [if_neg h4] at h
        injection h with h
        exact Or.inl h.symm

/-- Claim C2: the refresh guard, evaluated at its three possible worker
states. While a worker is still running the call starts a second
fetcher (it does not drop the request), and once the worker has
finished the call is refused with the already-running log line, the
reverse of the guarded behaviour the claim states. -/
theorem refresh_guard_inverted :
    MoodleTreeWidget.refresh { worker := some { finished := false } } =
      ({ worker := some { finished := false } }, true, []) ∧
    MoodleTreeWidget.refresh { worker := some { finished := true } } =
      ({ worker := some { finished := true } }, false,
        ["A worker is already running, not refreshing"]) ∧
    MoodleTreeWidget.refresh { worker := none } =
      ({ worker := some { finished := false } }, true, []) :=
  ⟨rfl, rfl, rfl⟩

/-- Claim C4, counterexample: the specialized module kinds do not carry
rank 3 and the specialized content kinds do not carry rank 10. -/
theorem rank_forum_not_three :
    MType.rank .FORUM ≠ 3 ∧ MType.rank .QUIZ ≠ 3 ∧
    MType.rank .FILE ≠ 10 ∧ MType.rank .URL ≠ 10 := by
  decide

/-- Claim C4, amended: the thirteen kinds take the distinct ranks 0 to
12 in declaration order, so the order ROOT, COURSE, SECTION, MODULE,
CONTENT is strict and every specialized kind has a rank strictly above
the rank of its general kind, not equal to it. -/
theorem rank_values :
    MType.rank .ROOT = 0 ∧ MType.rank .COURSE = 1 ∧ MType.rank .SECTION = 2 ∧
    MType.rank .MODULE = 3 ∧ MType.rank .FORUM = 4 ∧ MType.rank .RESOURCE = 5 ∧
    MType.rank .FOLDER = 6 ∧ MType.rank .ATTENDANCE = 7 ∧ MType.rank .LABEL = 8 ∧
    MType.rank .QUIZ = 9 ∧ MType.rank .CONTENT = 10 ∧ MType.rank .FILE = 11 ∧
    MType.rank .URL = 12 ∧
    MType.rank .MODULE < MType.rank .FORUM ∧ MType.rank .QUIZ < MType.rank .CONTENT ∧
    MType.rank .CONTENT < MType.rank .FILE ∧ MType.rank .FILE < MType.rank .URL := by
  decide

/-- Claim C9: a freshly constructed item carries the user-checkable and
auto-tristate flags with an unchecked state exactly when its resolved
kind is FILE, FOLDER or RESOURCE; every other kind has the checkable
flag cleared and no check state. -/
theorem selectable_iff_kind (meta : Metadata) :
    (((mkMoodleItem meta).qt.userCheckable = true ∧
      (mkMoodleItem meta).qt.autoTristate = true ∧
      (mkMoodleItem meta).qt.checkState = some .unchecked) ↔
      meta.type ∈ [MType.FILE, MType.FOLDER, MType.RESOURCE]) ∧
    (((mkMoodleItem meta).qt.userCheckable = false ∧
      (mkMoodleItem meta).qt.checkState = none) ↔
      meta.type ∉ [MType.FILE, MType.FOLDER, MType.RESOURCE]) := by
  by_cases h : meta.type ∈ [MType.FILE, MType.FOLDER, MType.RESOURCE] <;>
    simp [mkMoodleItem, MoodleItem.qt, setupQt, h]

/-- Claim C10, counterexample: a course item created from a title with
an HTML entity stores the raw title, so the stored title attribute is
not the HTML-unescaped form of the received title. -/
theorem stored_title_not_unescaped :
    (mkMoodleItem
        { type := .COURSE, id := some (.vInt 1), title := "A &amp; B", url := none }).metadata.title ≠
      html_unescape "A &amp; B" := by
  decide

/-- Claim C10, amended: the displayed text of every created item is the
HTML-unescaped raw title, decoded once at creation, while the stored
metadata title keeps the raw received title; the finalize sort reorders
children only and never touches the decoded text of a node. -/
theorem title_decoding_display :
    (∀ meta : Metadata,
      (mkMoodleItem meta).qt.text = html_unescape meta.title ∧
      (mkMoodleItem meta).metadata.title = meta.title) ∧
    (∀ x : MoodleItem, (sortTree x).qt.text = x.qt.text) := by
  constructor
  · intro meta
    constructor
    · by_cases h : meta.type ∈ [MType.FILE, MType.FOLDER, MType.RESOURCE] <;>
        simp [mkMoodleItem, MoodleItem.qt, setupQt, h]
    · rfl
  · intro x
    cases x with
    | mk m q cs => simp [sortTree, MoodleItem.qt]

/-- Claim C3, counterexample: a COURSE record without its id key makes
the reconstruction handler raise a KeyError (the subscript in the
keyword arguments), instead of the logged skip the claim states. -/
theorem course_missing_id_raises :
    MoodleTreeWidget.onWorkerLoadedItem exSt0 .COURSE [("shortname", Value.vStr "X")] =
      .error (.keyError "id") := rfl

/-- Claim C5, counterexample: a MODULE record without its modname key
raises a KeyError instead of falling back to the generic MODULE kind,
so subtype resolution is not raise-free on a missing tag. -/
theorem module_missing_modname_raises :
    MoodleTreeWidget.onWorkerLoadedItem exSt1 .MODULE
        [("id", Value.vInt 5), ("name", Value.vStr "M")] =
      .error (.keyError "modname") := rfl

/-- Claim C1: parent inference. A COURSE event is attached as a
top-level item (a child of the invisible root) whatever the last
inserted item is; any other kind climbs from the last inserted item
while the incoming rank is less than or equal to the candidate rank and
a parent exists, so the chosen parent is the first ancestor of strictly
smaller rank or the top of the chain, and the successful handling of a
non-course event attaches exactly under that climbed parent. -/
theorem parent_inference :
    (∀ (st : TreeState) (course : Record) (idv snv : Value),
      alookup course "id" = some idv → alookup course "shortname" = some snv →
      MoodleTreeWidget.onWorkerLoadedItem st .COURSE course =
        .ok { st with
              topLevel := st.topLevel ++
                [mkMoodleItem { type := .COURSE, id := some idv, title := snv.pyStr, url := none }]
              lastInsertedItem := some [st.topLevel.length] }) ∧
    (∀ (forest : List MoodleItem) (ty : MType) (p : List Nat),
      p ≠ [] → validChain forest p →
      MoodleTreeWidget.climb forest ty p ≠ [] ∧
      MoodleTreeWidget.climb forest ty p <:+ p ∧
      (∀ n, nodeAtRev forest (MoodleTreeWidget.climb forest ty p) = some n →
        (MoodleTreeWidget.climb forest ty p).length = 1 ∨ n.metadata.type.rank < ty.rank) ∧
      (∀ q n, MoodleTreeWidget.climb forest ty p <:+ q → q <:+ p →
        q ≠ MoodleTreeWidget.climb forest ty p → nodeAtRev forest q = some n →
        ty.rank ≤ n.metadata.type.rank)) ∧
    (∀ (st : TreeState) (ty : MType) (item : Record) (p0 : List Nat) (st' : TreeState),
      ty ≠ .COURSE → st.lastInsertedItem = some p0 →
      MoodleTreeWidget.onWorkerLoadedItem st ty item = .ok st' →
      st' = st ∨ ∃ mi, st' =
        MoodleTreeWidget.insertUnder st (MoodleTreeWidget.climb st.topLevel ty p0) mi) :=
  ⟨onCourse_ok, climb_spec, onWorker_nonCourse⟩

/-- Witness for claim C1: the three parts instantiated at concrete
states, a course event on the empty widget, the climb from a
course-section chain for an incoming MODULE, and a concrete SECTION
insertion. -/
theorem parent_inference_witness :
    (MoodleTreeWidget.onWorkerLoadedItem exSt0 .COURSE exCourse =
      .ok { exSt0 with
            topLevel := exSt0.topLevel ++
              [mkMoodleItem { type := .COURSE, id := some (.vInt 1),
                              title := (Value.vStr "CS101").pyStr, url := none }]
            lastInsertedItem := some [exSt0.topLevel.length] }) ∧
    (MoodleTreeWidget.climb exSt2.topLevel .MODULE [0, 0] ≠ [] ∧
      MoodleTreeWidget.climb exSt2.topLevel .MODULE [0, 0] <:+ [0, 0] ∧
      (∀ n, nodeAtRev exSt2.topLevel (MoodleTreeWidget.climb exSt2.topLevel .MODULE [0, 0]) = some n →
        (MoodleTreeWidget.climb exSt2.topLevel .MODULE [0, 0]).length = 1 ∨
          n.metadata.type.rank < MType.rank .MODULE) ∧
      (∀ q n, MoodleTreeWidget.climb exSt2.topLevel .MODULE [0, 0] <:+ q → q <:+ [0, 0] →
        q ≠ MoodleTreeWidget.climb exSt2.topLevel .MODULE [0, 0] →
        nodeAtRev exSt2.topLevel q = some n →
        MType.rank .MODULE ≤ n.metadata.type.rank)) ∧
    (exSt2 = exSt1 ∨ ∃ mi, exSt2 =
      MoodleTreeWidget.insertUnder exSt1 (MoodleTreeWidget.climb exSt1.topLevel .SECTION [0]) mi) :=
  ⟨parent_inference.1 exSt0 exCourse (.vInt 1) (.vStr "CS101") rfl rfl,
   parent_inference.2.1 exSt2.topLevel .MODULE [0, 0] (by decide) (by decide),
   parent_inference.2.2 exSt1 .SECTION exSec [0] exSt2 (by decide) rfl rfl⟩

/-- Claim C3, amended: a COURSE record without its id key makes the
fetcher skip the section listing with a log line and no raise, but the
COURSE event itself is still emitted and the handler raises a KeyError
on it (during keyword argument evaluation), so zero nodes are created,
delivery of the failed event leaves the widget state unchanged and does
not advance `lastInsertedItem`, and a later well-formed COURSE event
processed from that state still attaches to the root as a top-level
item. -/
theorem course_missing_id_behavior (api : Api) (st : TreeState) (course : Record)
    (hid : alookup course "id" = none) :
    MoodleFetcher.getSections api course =
      ([], ["cannot get sections from invalid course (no id)"]) ∧
    MoodleTreeWidget.onWorkerLoadedItem st .COURSE course = .error (.keyError "id") ∧
    processAll st [(.COURSE, course)] = st ∧
    (∀ (course2 : Record) (idv snv : Value),
      alookup course2 "id" = some idv → alookup course2 "shortname" = some snv →
      MoodleTreeWidget.onWorkerLoadedItem st .COURSE course2 =
        .ok { st with
              topLevel := st.topLevel ++
                [mkMoodleItem { type := .COURSE, id := some idv, title := snv.pyStr, url := none }]
              lastInsertedItem := some [st.topLevel.length] }) := by
  have herr : MoodleTreeWidget.onWorkerLoadedItem st .COURSE course = .error (.keyError "id") := by
    simp [MoodleTreeWidget.onWorkerLoadedItem, dGet, hid, except_bind_error]
  refine ⟨?_, herr, ?_, fun course2 idv snv h1 h2 => onCourse_ok st course2 idv snv h1 h2⟩
  · simp [MoodleFetcher.getSections, hid]
  · simp [processAll, herr]

/-- Witness for claim C3: the concrete course record with a shortname
but no id, processed on the empty widget. -/
theorem course_missing_id_behavior_witness :
    MoodleFetcher.getSections { coursesResp := none, sectionsResp := fun _ => none }
        [("shortname", Value.vStr "X")] =
      ([], ["cannot get sections from invalid course (no id)"]) ∧
    MoodleTreeWidget.onWorkerLoadedItem exSt0 .COURSE [("shortname", Value.vStr "X")] =
      .error (.keyError "id") ∧
    processAll exSt0 [(.COURSE, [("shortname", Value.vStr "X")])] = exSt0 ∧
    (∀ (course2 : Record) (idv snv : Value),
      alookup course2 "id" = some idv → alookup course2 "shortname" = some snv →
      MoodleTreeWidget.onWorkerLoadedItem exSt0 .COURSE course2 =
        .ok { exSt0 with
              topLevel := exSt0.topLevel ++
                [mkMoodleItem { type := .COURSE, id := some idv, title := snv.pyStr, url := none }]
              lastInsertedItem := some [exSt0.topLevel.length] }) :=
  course_missing_id_behavior { coursesResp := none, sectionsResp := fun _ => none }
    exSt0 [("shortname", Value.vStr "X")] rfl

/-- Claim C5, amended: a present but unmapped subtype tag falls back to
the generic kind — a MODULE event with an unknown modname builds a
generic MODULE node and a CONTENT event with an unknown type builds a
generic CONTENT node — but a missing tag key raises a KeyError from the
subscript before the dict lookup, so resolution is not raise-free. -/
theorem subtype_fallback :
    (∀ (st : TreeState) (p0 : List Nat) (item : Record) (s : String) (idv namev : Value),
      st.lastInsertedItem = some p0 →
      alookup item "modname" = some (.vStr s) →
      s ∉ moduleType.map Prod.fst →
      alookup item "id" = some idv → alookup item "name" = some namev →
      MoodleTreeWidget.onWorkerLoadedItem st .MODULE item =
        .ok (MoodleTreeWidget.insertUnder st (MoodleTreeWidget.climb st.topLevel .MODULE p0)
          (mkMoodleItem { type := .MODULE, id := some idv, title := namev.pyStr, url := none }))) ∧
    (∀ (st : TreeState) (p0 : List Nat) (item : Record) (s : String) (fnv urlv : Value),
      st.lastInsertedItem = some p0 →
      alookup item "type" = some (.vStr s) →
      s ∉ contentType.map Prod.fst →
      alookup item "filename" = some fnv → alookup item "fileurl" = some urlv →
      MoodleTreeWidget.onWorkerLoadedItem st .CONTENT item =
        .ok (MoodleTreeWidget.insertUnder st (MoodleTreeWidget.climb st.topLevel .CONTENT p0)
          (mkMoodleItem { type := .CONTENT, id := none, title := fnv.pyStr, url := some urlv }))) ∧
    (∀ (st : TreeState) (p0 : List Nat) (item : Record),
      st.lastInsertedItem = some p0 → alookup item "modname" = none →
      MoodleTreeWidget.onWorkerLoadedItem st .MODULE item = .error (.keyError "modname")) ∧
    (∀ (st : TreeState) (p0 : List Nat) (item : Record),
      st.lastInsertedItem = some p0 → alookup item "type" = none →
      MoodleTreeWidget.onWorkerLoadedItem st .CONTENT item = .error (.keyError "type")) := by
  refine ⟨?_, ?_, ?_, ?_⟩
  · intro st p0 item s idv namev hlast hmod hs hid hname
    have hnone : alookup moduleType s = none := (alookup_none_iff moduleType s).mpr hs
    simp [MoodleTreeWidget.onWorkerLoadedItem, hlast, dGet, hmod, hid, hname,
      except_bind_ok, getOr, dictGet, hnone]
  · intro st p0 item s fnv urlv hlast htag hs hfn hurl
    have hnone : alookup contentType s = none := (alookup_none_iff contentType s).mpr hs
    simp [MoodleTreeWidget.onWorkerLoadedItem, hlast, dGet, htag, hfn, hurl,
      except_bind_ok, getOr, dictGet, hnone]
  · intro st p0 item hlast hmod
    simp [MoodleTreeWidget.onWorkerLoadedItem, hlast, dGet, hmod, except_bind_error]
  · intro st p0 item hlast htag
    simp [MoodleTreeWidget.onWorkerLoadedItem, hlast, dGet, htag, except_bind_error]

/-- Witness for claim C5: a module with the unknown tag wiki resolves to
a generic MODULE node, a content item with the unknown tag zip resolves
to a generic CONTENT node, and records missing the tag keys raise. -/
theorem subtype_fallback_witness :
    (MoodleTreeWidget.onWorkerLoadedItem exSt1 .MODULE
        [("modname", Value.vStr "wiki"), ("id", Value.vInt 7), ("name", Value.vStr "W")] =
      .ok (MoodleTreeWidget.insertUnder exSt1 (MoodleTreeWidget.climb exSt1.topLevel .MODULE [0])
        (mkMoodleItem { type := .MODULE, id := some (.vInt 7),
                        title := (Value.vStr "W").pyStr, url := none }))) ∧
    (MoodleTreeWidget.onWorkerLoadedItem exSt1 .CONTENT
        [("type", Value.vStr "zip"), ("filename", Value.vStr "f"), ("fileurl", Value.vStr "u")] =
      .ok (MoodleTreeWidget.insertUnder exSt1 (MoodleTreeWidget.climb exSt1.topLevel .CONTENT [0])
        (mkMoodleItem { type := .CONTENT, id := none,
                        title := (Value.vStr "f").pyStr, url := some (.vStr "u") }))) ∧
    (MoodleTreeWidget.onWorkerLoadedItem exSt1 .MODULE
        [("id", Value.vInt 5), ("name", Value.vStr "M")] = .error (.keyError "modname")) ∧
    (MoodleTreeWidget.onWorkerLoadedItem exSt1 .CONTENT
        [("filename", Value.vStr "f")] = .error (.keyError "type")) :=
  ⟨subtype_fallback.1 exSt1 [0]
      [("modname", Value.vStr "wiki"), ("id", Value.vInt 7), ("name", Value.vStr "W")]
      "wiki" (.vInt 7) (.vStr "W") rfl rfl (by decide) rfl rfl,
   subtype_fallback.2.1 exSt1 [0]
      [("type", Value.vStr "zip"), ("filename", Value.vStr "f"), ("fileurl", Value.vStr "u")]
      "zip" (.vStr "f") (.vStr "u") rfl rfl (by decide) rfl rfl,
   subtype_fallback.2.2.1 exSt1 [0] [("id", Value.vInt 5), ("name", Value.vStr "M")] rfl rfl,
   subtype_fallback.2.2.2 exSt1 [0] [("filename", Value.vStr "f")] rfl rfl⟩

theorem foldl_emit {a b : Type} (f : a → List b) :
    ∀ (l : List a) (acc : List b),
      l.foldl (fun x y => x ++ f y) acc = acc ++ l.flatMap f := by
  intro l
  induction l with
  | nil => intro acc; simp
  | cons x xs ih => intro acc; simp [ih]

theorem flatMap_single {a b : Type} (g : a → b) (l : List a) :
    (l.flatMap fun y => [g y]) = l.map g := by
  induction l with
  | nil => simp
  | cons x xs ih => simp [ih]

theorem run_eq_flatten (api : Api) :
    MoodleFetcher.run api = MoodleFetcher.dfsFlattenSpec api := by
  unfold MoodleFetcher.run MoodleFetcher.dfsFlattenSpec
  simp only [foldl_emit, List.append_assoc, List.singleton_append, List.nil_append,
    flatMap_single]

/-- Claim C6: the emitted event sequence is the strict depth-first
left-to-right flattening of the catalog — COURSE, then its SECTIONs,
then each of their MODULEs, then each of their CONTENT items, in the
returned order — and a section without a modules key or a module
without a contents key contributes no child events, so traversal
backtracks there. -/
theorem run_emission_order :
    (∀ api : Api, MoodleFetcher.run api = MoodleFetcher.dfsFlattenSpec api) ∧
    (∀ s : Record, alookup s "modules" = none → MoodleFetcher.getModules s = []) ∧
    (∀ m : Record, alookup m "contents" = none → MoodleFetcher.getContent m = []) := by
  refine ⟨run_eq_flatten, ?_, ?_⟩
  · intro s h; simp [MoodleFetcher.getModules, h]
  · intro m h; simp [MoodleFetcher.getContent, h]

/-- Witness for claim C6: one concrete catalog with one course, one
section, one module and one content item, plus records without the
child-listing keys. -/
theorem run_emission_order_witness :
    (MoodleFetcher.run
        { coursesResp := some [exCourse]
          sectionsResp := fun k =>
            if k = "1" then
              some [[("id", Value.vInt 10), ("name", Value.vStr "Week1"),
                     ("modules", Value.vList [[("id", Value.vInt 100), ("name", Value.vStr "Slides"),
                       ("modname", Value.vStr "resource"),
                       ("contents", Value.vList [[("filename", Value.vStr "a.pdf"),
                         ("fileurl", Value.vStr "http"), ("type", Value.vStr "file")]])]])]]
            else none } =
      MoodleFetcher.dfsFlattenSpec
        { coursesResp := some [exCourse]
          sectionsResp := fun k =>
            if k = "1" then
              some [[("id", Value.vInt 10), ("name", Value.vStr "Week1"),
                     ("modules", Value.vList [[("id", Value.vInt 100), ("name", Value.vStr "Slides"),
                       ("modname", Value.vStr "resource"),
                       ("contents", Value.vList [[("filename", Value.vStr "a.pdf"),
                         ("fileurl", Value.vStr "http"), ("type", Value.vStr "file")]])]])]]
            else none }) ∧
    MoodleFetcher.getModules [("id", Value.vInt 10)] = [] ∧
    MoodleFetcher.getContent [("id", Value.vInt 100)] = [] :=
  ⟨run_emission_order.1 _,
   run_emission_order.2.1 [("id", Value.vInt 10)] rfl,
   run_emission_order.2.2 [("id", Value.vInt 100)] rfl⟩

theorem flatten_congr (api api' : Api)
    (h1 : MoodleFetcher.getCourses api = MoodleFetcher.getCourses api')
    (h2 : ∀ c, (MoodleFetcher.getSections api c).1 = (MoodleFetcher.getSections api' c).1) :
    MoodleFetcher.dfsFlattenSpec api = MoodleFetcher.dfsFlattenSpec api' := by
  unfold MoodleFetcher.dfsFlattenSpec
  rw [← h1]
  induction MoodleFetcher.getCourses api with
  | nil => simp
  | cons c cs ih => simp only [List.flatMap_cons, ih, h2 c]

/-- Claim C7: a failed course-listing request yields no courses and an
empty run, and a failed section-listing request for a course is the
same as that course having an empty section list — the emitted stream
is unchanged when the failed response is replaced by an empty listing,
so siblings and ancestors are unaffected and no failure propagates. -/
theorem listing_failure_empty :
    (∀ api : Api, api.coursesResp = none →
      MoodleFetcher.getCourses api = [] ∧ MoodleFetcher.run api = []) ∧
    (∀ (api : Api) (course : Record) (idv : Value),
      alookup course "id" = some idv → api.sectionsResp idv.pyStr = none →
      (MoodleFetcher.getSections api course).1 = [] ∧
      MoodleFetcher.run api =
        MoodleFetcher.run
          { api with sectionsResp := fun k =>
              if k = idv.pyStr then some [] else api.sectionsResp k }) := by
  constructor
  · intro api h
    have hc : MoodleFetcher.getCourses api = [] := by simp [MoodleFetcher.getCourses, h]
    exact ⟨hc, by simp [MoodleFetcher.run, hc]⟩
  · intro api course idv hid hresp
    have hsec : ∀ c, (MoodleFetcher.getSections api c).1 =
        (MoodleFetcher.getSections
          { api with sectionsResp := fun k =>
              if k = idv.pyStr then some [] else api.sectionsResp k } c).1 := by
      intro c
      unfold MoodleFetcher.getSections
      cases hcid : alookup c "id" with
      | none => rfl
      | some j =>
        by_cases hk : j.pyStr = idv.pyStr
        · dsimp only
          rw [hk]
          simp [hresp]
        · dsimp only
          simp only [if_neg hk]
    constructor
    · rw [hsec course]
      simp [MoodleFetcher.getSections, hid]
    · rw [run_eq_flatten, run_eq_flatten]
      exact flatten_congr _ _ rfl hsec

/-- Witness for claim C7: a concrete failed course listing, and a
concrete course whose section request fails. -/
theorem listing_failure_empty_witness :
    (MoodleFetcher.getCourses { coursesResp := none, sectionsResp := fun _ => none } = [] ∧
      MoodleFetcher.run { coursesResp := none, sectionsResp := fun _ => none } = []) ∧
    ((MoodleFetcher.getSections { coursesResp := some [exCourse], sectionsResp := fun _ => none }
        exCourse).1 = [] ∧
      MoodleFetcher.run { coursesResp := some [exCourse], sectionsResp := fun _ => none } =
        MoodleFetcher.run
          { coursesResp := some [exCourse]
            sectionsResp := fun k => if k = (Value.vInt 1).pyStr then some [] else none }) :=
  ⟨listing_failure_empty.1 { coursesResp := none, sectionsResp := fun _ => none } rfl,
   listing_failure_empty.2 { coursesResp := some [exCourse], sectionsResp := fun _ => none }
     exCourse (.vInt 1) rfl rfl⟩

theorem sortTrees_eq_map : ∀ l : List MoodleItem, sortTrees l = l.map sortTree := by
  intro l
  induction l with
  | nil => simp [sortTrees]
  | cons c cs ih => simp [sortTrees, ih]

theorem allSorted_sortTree_aux :
    ∀ (n : Nat) (x : MoodleItem), sizeOf x ≤ n → AllSorted (sortTree x) := by
  intro n
  induction n with
  | zero =>
    intro x hx
    cases x with
    | mk m q cs => simp at hx
  | succ n ih =>
    intro x hx
    cases x with
    | mk m q cs =>
      rw [sortTree]
      refine AllSorted.mk m q _ (List.sorted_insertionSort byText _) ?_
      intro c hc
      have hc2 : c ∈ sortTrees cs :=
        ((List.perm_insertionSort byText (sortTrees cs)).mem_iff).mp hc
      rw [sortTrees_eq_map] at hc2
      obtain ⟨c0, hc0, rfl⟩ := List.mem_map.mp hc2
      apply ih
      have h1 : sizeOf c0 < sizeOf cs := List.sizeOf_lt_of_mem hc0
      have h2 : sizeOf (MoodleItem.mk m q cs) = 1 + sizeOf m + sizeOf q + sizeOf cs := by
        simp
      omega

theorem allSorted_sortTree (x : MoodleItem) : AllSorted (sortTree x) :=
  allSorted_sortTree_aux (sizeOf x) x le_rfl

theorem allSortedForest_sortForest (l : List MoodleItem) :
    AllSortedForest (sortForest l) := by
  refine ⟨List.sorted_insertionSort byText _, ?_⟩
  intro c hc
  have hc2 : c ∈ sortTrees l :=
    ((List.perm_insertionSort byText (sortTrees l)).mem_iff).mp hc
  rw [sortTrees_eq_map] at hc2
  obtain ⟨c0, hc0, rfl⟩ := List.mem_map.mp hc2
  exact allSorted_sortTree c0

/-- Claim C8: the end-of-stream signal triggers the finalize step once,
after the last delivered event; it sorts the whole tree by display
title ascending at every level, the top level included, and sets the
sorting-enabled flag so Qt keeps the tree sorted under later
mutations. -/
theorem finalize_sorts_all_levels :
    (∀ st : TreeState,
      (MoodleTreeWidget.onWorkerDone st).sortingEnabled = true ∧
      AllSortedForest (MoodleTreeWidget.onWorkerDone st).topLevel ∧
      (MoodleTreeWidget.onWorkerDone st).lastInsertedItem = st.lastInsertedItem) ∧
    (∀ (api : Api) (st : TreeState),
      session api st = MoodleTreeWidget.onWorkerDone (processAll st (MoodleFetcher.run api)) ∧
      AllSortedForest (session api st).topLevel ∧
      (session api st).sortingEnabled = true) := by
  have hdone : ∀ st : TreeState,
      (MoodleTreeWidget.onWorkerDone st).sortingEnabled = true ∧
      AllSortedForest (MoodleTreeWidget.onWorkerDone st).topLevel ∧
      (MoodleTreeWidget.onWorkerDone st).lastInsertedItem = st.lastInsertedItem := by
    intro st
    exact ⟨rfl, allSortedForest_sortForest st.topLevel, rfl⟩
  refine ⟨hdone, ?_⟩
  intro api st
  exact ⟨rfl, (hdone _).2.1, (hdone _).1⟩





